import Mathlib

/-!
Shallow embedding of `src/src/renderer/editor/shader_compiler.cpp`
(`Lumix::ShaderCompiler`).  Paths are modelled as lists of characters,
modification times as naturals, and the platform filesystem as an abstract
snapshot.  Engine utilities that are not part of `src/` (path utilities,
`Array::removeDuplicates`, the `ShaderCombinations` record, the platform
file queries) are modelled from the spec, as noted on each definition.
-/

namespace ShaderCompilerModel

/-- Paths are character lists; this keeps all string manipulation of the
source (suffix tests, in-place rewrites, concatenation) executable. -/
abbrev Path := List Char

/-- Modelled from the spec: the platform file-query collaborator
(`PlatformInterface::fileExists` / `getLastModified`, not in `src/`), as an
abstract filesystem snapshot.  A query on a nonexistent file reports no
modification time, encoded as 0. -/
structure FsModel where
  fexists : Path → Bool
  mtime : Path → Nat
  mtime_missing : ∀ p, fexists p = false → mtime p = 0

/-- Builds a filesystem snapshot from a finite table of (path, mtime)
pairs; paths absent from the table do not exist and report mtime 0. -/
def fsOfTable (t : List (Path × Nat)) : FsModel where
  fexists p := t.any (fun e => e.1 == p)
  mtime p :=
    match t.find? (fun e => e.1 == p) with
    | some e => e.2
    | none => 0
  mtime_missing := by
    intro p h
    have hnone : t.find? (fun e => e.1 == p) = none := by
      rw [List.find?_eq_none]
      intro x hx
      exact (List.any_eq_false.mp h) x hx
    simp [hnone]

/-- The empty filesystem: no file exists. -/
def fsNone : FsModel := fsOfTable []

/-- Modelled from the spec: `PathUtils::getBasename` (engine path utility,
not in `src/`) — the characters after the last directory separator and
before the first dot that follows it. -/
def getBasename (l : Path) : Path :=
  ((l.reverse.takeWhile (fun c => !(c == '/' || c == '\\'))).reverse).takeWhile
    (fun c => !(c == '.'))

/-- Modelled from the spec: `PathUtils::FileInfo::m_dir` — the path up to
and including the last directory separator. -/
def fileDir (l : Path) : Path :=
  l.take (l.length - (l.reverse.takeWhile (fun c => !(c == '/' || c == '\\'))).length)

/-- Modelled from the spec: `PathUtils::getExtension` (engine path utility,
not in `src/`) — the characters after the last dot, or empty if there is
no dot. -/
def getExtension (l : Path) : Path :=
  if '.' ∈ l then (l.reverse.takeWhile (fun c => !(c == '.'))).reverse else []

/-- Modelled from the spec: `PathUtils::hasExtension` — extension equality. -/
def hasExtension (l : Path) (ext : Path) : Bool :=
  getExtension l == ext

/-- Modelled from the spec: `PathUtils::normalize` — canonicalizes
directory separators. -/
def normalizePath (l : Path) : Path :=
  l.map (fun c => if c == '\\' then '/' else c)

/-- Modelled from the spec: `Array::removeDuplicates` (engine container,
not in `src/`) — removes duplicate entries, leaving one occurrence of each. -/
def removeDuplicates (l : List Path) : List Path := l.dedup

/-- Number of occurrences of a path in a list — used to state the
"enqueued exactly once" properties. -/
def countOcc (d : Path) (l : List Path) : Nat :=
  (l.filter (fun x => x == d)).length

/-- Decimal rendering of a mask, as `StaticString << int` does in the source. -/
def natChars (n : Nat) : Path := (Nat.repr n).toList

/-- The C++ `~mask` on a 32-bit `int`, restricted to the nonnegative masks the
source uses: bitwise complement within 32 bits. -/
def compl32 (m : Nat) : Nat := m ^^^ (2 ^ 32 - 1)

/-- Modelled from the spec: one pass of a `ShaderCombinations` record
(`renderer/shader.h`, not in `src/`): a pass name with its per-stage local
define masks (§3 of the spec). -/
structure Pass where
  name : Path
  vs_local_mask : Nat
  fs_local_mask : Nat
deriving DecidableEq

/-- Modelled from the spec: the `ShaderCombinations` record — the ordered
pass list and the shared define list; the source's mask loops run over
`1 << lengthOf(defines)`, modelled as `2 ^ defines.length`. -/
structure ShaderCombinations where
  passes : List Pass
  defines : List Path
deriving DecidableEq

/-- `getShaderPath` (shader_compiler.cpp:101): the stage-source path
`{dir}{basename}_vs.sc` / `_fs.sc` of a descriptor. -/
def getShaderPath (shd : Path) (vertex : Bool) : Path :=
  fileDir shd ++ getBasename shd ++ (if vertex then "_vs.sc" else "_fs.sc").toList

/-- The baseline computation of `ShaderCompiler::isChanged`
(shader_compiler.cpp:114-128): start from the descriptor's mtime and for
each stage file, if it does not exist or is newer, overwrite the baseline
with that file's reported mtime. -/
def staleBaseline (fs : FsModel) (shd_path : Path) : Nat :=
  let b0 := fs.mtime shd_path
  let vsf := getShaderPath shd_path true
  let b1 := if fs.fexists vsf = false ∨ b0 < fs.mtime vsf then fs.mtime vsf else b0
  let fsf := getShaderPath shd_path false
  if fs.fexists fsf = false ∨ b1 < fs.mtime fsf then fs.mtime fsf else b1

/-- The per-variant staleness test of `isChanged`: the binary is missing or
older than the baseline. -/
def staleCheck (fs : FsModel) (base : Nat) (bin : Path) : Bool :=
  !fs.fexists bin || decide (fs.mtime bin < base)

/-- The vertex-variant binary path `{bin_base_path}{pass}{mask}_vs.shb`
built inside `isChanged` (shader_compiler.cpp:138-139). -/
def vsBinPath (bin_base_path : Path) (p : Pass) (j : Nat) : Path :=
  bin_base_path ++ p.name ++ natChars j ++ "_vs.shb".toList

/-- The fragment-variant binary path `{bin_base_path}{pass}{mask}_fs.shb`
built inside `isChanged` (shader_compiler.cpp:148-149). -/
def fsBinPath (bin_base_path : Path) (p : Pass) (j : Nat) : Path :=
  bin_base_path ++ p.name ++ natChars j ++ "_fs.shb".toList

/-- `ShaderCompiler::isChanged` (shader_compiler.cpp:110-159): computes the
baseline, then for each pass and each mask in `0 .. 2^D - 1` checks the
vertex variant when the mask is a subset of the vertex local mask and the
fragment variant when it is a subset of the fragment local mask, reporting
stale as soon as one checked variant is missing or older than the baseline. -/
def isChanged (fs : FsModel) (c : ShaderCombinations) (bin_base_path shd_path : Path) :
    Bool :=
  let base := staleBaseline fs shd_path
  c.passes.any fun p =>
    (List.range (2 ^ c.defines.length)).any fun j =>
      ((j &&& compl32 p.vs_local_mask == 0) && staleCheck fs base (vsBinPath bin_base_path p j))
      || ((j &&& compl32 p.fs_local_mask == 0) && staleCheck fs base (fsBinPath bin_base_path p j))

/-- The subset-mask enumeration stated by the spec (§4.2): the masks in
`0 .. 2^D - 1` that are subsets of the local mask.  This is the spec-side
definition that the source loops are compared against. -/
def maskEnum (D localMask : Nat) : List Nat :=
  (List.range (2 ^ D)).filter fun j => j &&& compl32 localMask == 0

/-- The spec-side restatement of `isChanged` (§4.2): for each pass, check
exactly the vertex variants whose mask is in `maskEnum` of the vertex local
mask and the fragment variants whose mask is in `maskEnum` of the fragment
local mask. -/
def isChangedEnum (fs : FsModel) (c : ShaderCombinations) (bin_base_path shd_path : Path) :
    Bool :=
  let base := staleBaseline fs shd_path
  c.passes.any fun p =>
    (maskEnum c.defines.length p.vs_local_mask).any
      (fun j => staleCheck fs base (vsBinPath bin_base_path p j))
    || (maskEnum c.defines.length p.fs_local_mask).any
      (fun j => staleCheck fs base (fsBinPath bin_base_path p j))

/-- `ShaderCompiler::getSourceFromBinaryBasename` (shader_compiler.cpp:65-90):
take the binary basename up to its first underscore and return the first
known descriptor whose basename equals it; `none` (an informational log in
the source) when no descriptor matches. -/
def getSourceFromBinaryBasename (shd_files : List Path) (binary_basename : Path) :
    Option Path :=
  let shd_basename := binary_basename.takeWhile (fun c => !(c == '_'))
  shd_files.find? (fun shd => getBasename shd == shd_basename)

/-- The dependency graph: an association list from a dependency path to the
binary variant paths recorded against it (`m_dependencies`, an engine
associative array modelled from the spec as a finite map preserving
insertion order). -/
abbrev Deps := List (Path × List Path)

/-- `m_dependencies.find` followed by `.at`: the variant list recorded for
a path, if any. -/
def depsFind (deps : Deps) (p : Path) : Option (List Path) :=
  (deps.find? (fun e => e.1 == p)).map (fun e => e.2)

/-- The mutable state of a `ShaderCompiler` instance that the claims are
about: the compile queue, the change queue, the reload list, the dependency
graph and the discovered descriptor set (§3 of the spec). -/
structure CState where
  to_compile : List Path
  changed_files : List Path
  to_reload : List Path
  dependencies : Deps
  shd_files : List Path

/-- `ShaderCompiler::processChangedFiles` (shader_compiler.cpp:496-555):
returns unchanged while the compile queue is non-empty; otherwise pops the
most recent change (after deduplication), resolves it against the
dependency graph — retrying with the `_vs.sc`/`_fs.sc` suffix rewritten to
`.shd` when the direct lookup misses — and either enqueues the descriptor
directly or fans a shared dependency out to the deduplicated set of source
descriptors of its recorded variants. -/
def processChangedFiles (s : CState) : CState :=
  if s.to_compile ≠ [] then s
  else if s.changed_files = [] then s
  else
    let cf := removeDuplicates s.changed_files
    match cf.getLast? with
    | none => s
    | some p =>
      let s1 : CState := { s with changed_files := cf.dropLast }
      let resolved : Option (Path × List Path) :=
        match depsFind s.dependencies p with
        | some bins => some (p, bins)
        | none =>
          if p.length ≤ 6 then none
          else if p.drop (p.length - 6) == "_fs.sc".toList
              || p.drop (p.length - 6) == "_vs.sc".toList then
            let q := p.take (p.length - 6) ++ ".shd".toList
            match depsFind s.dependencies q with
            | some bins => some (q, bins)
            | none => none
          else none
      match resolved with
      | none => s1
      | some (q, bins) =>
        if hasExtension q "shd".toList then
          { s1 with to_compile := s1.to_compile ++ [q] }
        else
          let srcs := removeDuplicates (bins.filterMap
            (fun bin => getSourceFromBinaryBasename s.shd_files (getBasename bin)))
          { s1 with to_compile := s1.to_compile ++ srcs }

/-- One invocation of the external shader compiler issued by
`ShaderCompiler::compilePass` (shader_compiler.cpp:435-492): the stage
source path, the output variant path, the semicolon-joined define string
and the define mask it was issued for. -/
structure Invocation where
  source : Path
  out : Path
  defineStr : Path
  mask : Nat
deriving DecidableEq

/-- The define string built by `compilePass` (shader_compiler.cpp:477-485):
the pass name followed by the name of every define whose bit is set in the
mask, each followed by a semicolon. -/
def defineChars (all_defines : List Path) (mask : Nat) : Path :=
  all_defines.enum.foldl
    (fun acc e => if mask &&& (1 <<< e.1) == 0 then acc else acc ++ e.2 ++ ";".toList)
    []

/-- The invocations issued by `ShaderCompiler::compilePass`
(shader_compiler.cpp:426-493): for every mask in `0 .. 2^D - 1` that is a
subset of the pass's local mask, one synchronous compiler invocation with
the stage source `{dir}{basename}_vs.sc`/`_fs.sc` and the output
`{base}/pipelines/compiled[_gl]/{basename}_{pass}{mask}_vs.shb`/`_fs.shb`. -/
def compilePassInvs (base_path : Path) (is_opengl : Bool) (shd_path : Path)
    (is_vertex : Bool) (pass : Path) (define_mask : Nat) (all_defines : List Path) :
    List Invocation :=
  (List.range (2 ^ all_defines.length)).flatMap fun mask =>
    if mask &&& compl32 define_mask == 0 then
      [{ source := fileDir shd_path ++ getBasename shd_path
                     ++ (if is_vertex then "_vs.sc" else "_fs.sc").toList,
         out := base_path ++ "/pipelines/compiled".toList
                  ++ (if is_opengl then "_gl/" else "/").toList
                  ++ getBasename shd_path ++ "_".toList ++ pass ++ natChars mask
                  ++ (if is_vertex then "_vs.shb" else "_fs.shb").toList,
         defineStr := pass ++ ";".toList ++ defineChars all_defines mask,
         mask := mask }]
    else []

/-- `ShaderCompiler::compileAllPasses` (shader_compiler.cpp:590-603):
`compilePass` for every pass, with the per-pass local mask of the chosen
stage. -/
def compileAllInvs (base_path : Path) (is_opengl : Bool) (shd_path : Path)
    (is_vertex : Bool) (pickMask : Pass → Nat) (c : ShaderCombinations) :
    List Invocation :=
  c.passes.flatMap fun p =>
    compilePassInvs base_path is_opengl shd_path is_vertex p.name (pickMask p) c.defines

/-- The observable outcome of one `ShaderCompiler::compile` call: the paths
appended to the reload list, the number of errors logged, and the compiler
invocations issued. -/
structure CompileOutcome where
  reload : List Path
  errors : Nat
  invs : List Invocation
deriving DecidableEq

/-- `ShaderCompiler::compile` (shader_compiler.cpp:606-652): a descriptor
whose basename contains an underscore is rejected with one logged error
before anything else happens; otherwise the path is appended to the reload
list unconditionally, the descriptor is parsed (`combosOf`, the renderer's
`Shader::getShaderCombinations`, is not in `src/` and is modelled as an
oracle; `none` models an unreadable file, which logs one error), and all
fragment passes then all vertex passes are compiled.  `failed` is the
external compiler's failure oracle; each failing invocation logs one error
but aborts nothing.  Directory creation (lines 617-627) never returns early
and is not modelled. -/
def compileRun (base_path : Path) (is_opengl : Bool)
    (combosOf : Path → Option ShaderCombinations) (failed : Invocation → Bool)
    (path : Path) : CompileOutcome :=
  if (getBasename path).any (fun c => c == '_') then
    { reload := [], errors := 1, invs := [] }
  else
    match combosOf path with
    | none => { reload := [path], errors := 1, invs := [] }
    | some c =>
      let invs := compileAllInvs base_path is_opengl path false (fun p => p.fs_local_mask) c
                  ++ compileAllInvs base_path is_opengl path true (fun p => p.vs_local_mask) c
      { reload := [path], errors := (invs.filter failed).length, invs := invs }

/-- `ShaderCompiler::makeUpToDate` admission step (shader_compiler.cpp:187-267):
with an empty compile queue and a non-empty descriptor set, enqueue every
descriptor reported stale by `isChanged` (an unreadable descriptor,
`combosOf = none`, is logged and skipped), then every descriptor derived
from a dependency-graph record whose binary is missing or older than its
dependency, and deduplicate the queue.  Directory creation and the `wait`
loop are not modelled; the compiled-directory path is a parameter. -/
def makeUpToDate (fs : FsModel) (combosOf : Path → Option ShaderCombinations)
    (compiled_dir : Path) (s : CState) : CState :=
  if s.to_compile ≠ [] then s
  else if s.shd_files = [] then s
  else
    let fromScan := s.shd_files.filterMap fun shd =>
      match combosOf shd with
      | none => none
      | some c =>
        let bb := compiled_dir ++ "/".toList ++ getBasename shd ++ "_".toList
        if isChanged fs c bb shd then some shd else none
    let fromDeps := s.dependencies.flatMap fun e =>
      e.2.filterMap fun bin =>
        if fs.fexists bin = false ∨ fs.mtime bin < fs.mtime e.1 then
          getSourceFromBinaryBasename s.shd_files (getBasename bin)
        else none
    { s with to_compile := removeDuplicates (s.to_compile ++ fromScan ++ fromDeps) }

/-- Truncation of a dependency-file line at its first space
(shader_compiler.cpp:329-336 and 341-348). -/
def firstToken (l : Path) : Path := l.takeWhile (fun c => !(c == ' '))

/-- Modelled from the spec: the engine's `trimmed` helper — drops leading
whitespace from a dependency-file line. -/
def trimLeft (l : Path) : Path := l.dropWhile (fun c => c == ' ' || c == '\t')

/-- Association-list update used by `addDependency`: append `value` to the
record of key `k`, creating the record if absent (the engine associative
array's `find`/`insert`/`at`, modelled from the spec). -/
def updAssoc (k value : Path) : Deps → Deps
  | [] => [(k, [value])]
  | e :: rest => if e.1 == k then (e.1, e.2 ++ [value]) :: rest else e :: updAssoc k value rest

/-- `ShaderCompiler::addDependency` (shader_compiler.cpp:368-380): record
the edge `normalize(key) -> value`, appending to an existing record or
creating a new one. -/
def addDependency (deps : Deps) (key value : Path) : Deps :=
  updAssoc (normalizePath key) value deps

/-- One compiler-emitted dependency file: its first line (the binary
variant path) and the remaining lines (the files the compiler consulted). -/
structure DFile where
  first : Path
  rest : List Path

/-- Processing of one dependency file inside `parseDependencies`
(shader_compiler.cpp:314-362): truncate the first line at its first space,
record an edge from each further (trimmed, truncated) line to it, then
derive the originating descriptor from the binary basename and record that
edge too when a source descriptor is found. -/
def parseDFile (shd_files : List Path) (deps : Deps) (df : DFile) : Deps :=
  let first := firstToken df.first
  let deps1 := df.rest.foldl
    (fun d line => addDependency d (firstToken (trimLeft line)) first) deps
  match getSourceFromBinaryBasename shd_files (getBasename first) with
  | some src => addDependency deps1 src first
  | none => deps1

/-- The graph clear at the top of `parseDependencies`
(shader_compiler.cpp:307): `m_dependencies.clear()`. -/
def clearDeps (_old : Deps) : Deps := []

/-- `ShaderCompiler::parseDependencies` (shader_compiler.cpp:305-365) as a
transformer of the previous graph: clear it, then fold every dependency
file found in the compiled directory into a fresh graph.  Unreadable files
(skipped with a logged error in the source) are simply absent from
`dfiles`. -/
def parseDependenciesFrom (shd_files : List Path) (dfiles : List DFile)
    (old : Deps) : Deps :=
  dfiles.foldl (parseDFile shd_files) (clearDeps old)

/-- Concrete descriptor path for the C1 scenario. -/
def shdC1 : Path := "pipelines/foo.shd".toList

/-- Concrete filesystem for the C1 scenario: the descriptor (mtime 10) and
fragment stage file (mtime 5) exist, the vertex stage file
`pipelines/foo_vs.sc` does not, and both mask-0 binaries exist with
mtime 7. -/
def fsC1 : FsModel := fsOfTable
  [(shdC1, 10),
   ("pipelines/foo_fs.sc".toList, 5),
   ("pipelines/compiled/foo_A0_vs.shb".toList, 7),
   ("pipelines/compiled/foo_A0_fs.shb".toList, 7)]

/-- Concrete combinations for the C1 scenario: one pass `A`, no defines,
local masks 0. -/
def cC1 : ShaderCombinations := { passes := [⟨"A".toList, 0, 0⟩], defines := [] }

/-- Concrete combinations for the C2 witness: one pass `MAIN` with one
define `SKINNED` and local masks 1. -/
def cC2 : ShaderCombinations :=
  { passes := [⟨"MAIN".toList, 1, 1⟩], defines := ["SKINNED".toList] }

/-- Concrete state for the C3 counterexample: one discovered descriptor
`pipelines/bad_name.shd`, everything else empty. -/
def sC3 : CState :=
  { to_compile := [], changed_files := [], to_reload := [], dependencies := [],
    shd_files := ["pipelines/bad_name.shd".toList] }

/-- Concrete parse oracle for the C3 counterexample: every descriptor
parses to one pass `A` with no defines. -/
def combosOfC3 : Path → Option ShaderCombinations :=
  fun _ => some { passes := [⟨"A".toList, 0, 0⟩], defines := [] }

/-- Concrete state for the C4 witness: a non-empty compile queue and a
pending change event. -/
def sC4 : CState :=
  { to_compile := ["pipelines/a.shd".toList],
    changed_files := ["pipelines/common.sh".toList], to_reload := [],
    dependencies := [], shd_files := [] }

/-- The variant list recorded against `pipelines/common.sh` in the C5
witness: two variants of `a.shd` and one of `b.shd`. -/
def binsC5 : List Path :=
  ["pipelines/compiled/a_M0_vs.shb".toList,
   "pipelines/compiled/b_M0_vs.shb".toList,
   "pipelines/compiled/a_M1_vs.shb".toList]

/-- Concrete state for the C5 witness: a change event on the shared
include `pipelines/common.sh`, which three recorded variants of the two
descriptors `a.shd` and `b.shd` depend on. -/
def sC5 : CState :=
  { to_compile := [], changed_files := ["pipelines/common.sh".toList],
    to_reload := [], dependencies := [("pipelines/common.sh".toList, binsC5)],
    shd_files := ["pipelines/a.shd".toList, "pipelines/b.shd".toList] }

/-- Concrete state for the C6 counterexample: the descriptor
`pipelines/foo.shd` is discovered (exists), a change event on
`pipelines/foo_vs.sc` is pending, and the dependency graph is empty (the
descriptor was never compiled). -/
def sC6 : CState :=
  { to_compile := [], changed_files := ["pipelines/foo_vs.sc".toList],
    to_reload := [], dependencies := [],
    shd_files := ["pipelines/foo.shd".toList] }

/-- Concrete state for the C6 witness: as `sC6` but with a dependency-graph
entry for `pipelines/foo.shd`. -/
def sC6w : CState :=
  { to_compile := [], changed_files := ["pipelines/foo_vs.sc".toList],
    to_reload := [],
    dependencies := [("pipelines/foo.shd".toList,
                      ["pipelines/compiled/foo_M0_vs.shb".toList])],
    shd_files := ["pipelines/foo.shd".toList] }

/-- Concrete combinations for the C7 witness: one pass `MAIN` with one
define and local masks 1 (the spec's end-to-end scenario). -/
def cC7 : ShaderCombinations :=
  { passes := [⟨"MAIN".toList, 1, 1⟩], defines := ["SKINNED".toList] }

/-- Concrete parse oracle for the C9 witness. -/
def combosOfC9 : Path → Option ShaderCombinations :=
  fun _ => some { passes := [⟨"MAIN".toList, 1, 1⟩], defines := ["SKINNED".toList] }

/-- Concrete state for the C10 witness: one pending change event on
`pipelines/readme.sh`, which has no dependency-graph entry and is not a
stage file. -/
def sC10 : CState :=
  { to_compile := [], changed_files := ["pipelines/readme.sh".toList],
    to_reload := [], dependencies := [], shd_files := [] }

/-- A mask below `2^32` that is a 32-bit subset of a local mask below
`2^D` is itself below `2^D`: the range bound of the source's variant loops
is no restriction for subset masks. -/
theorem subset_mask_lt (D localMask m : Nat)
    (hl : localMask < 2 ^ D) (hm : m < 2 ^ 32)
    (h : m &&& compl32 localMask = 0) : m < 2 ^ D := by
  have hml : m &&& localMask = m := by
    apply Nat.eq_of_testBit_eq
    intro i
    rw [Nat.testBit_and]
    cases hmi : m.testBit i with
    | false => simp
    | true =>
      have hi32 : i < 32 := by
        by_contra hge
        have hlt : m < 2 ^ i :=
          lt_of_lt_of_le hm (Nat.pow_le_pow_right (by norm_num) (le_of_not_lt hge))
        rw [Nat.testBit_lt_two_pow hlt] at hmi
        exact Bool.false_ne_true hmi

      have h0 : (m &&& compl32 localMask).testBit i = false := by
        rw [h]; simp
      rw [Nat.testBit_and, hmi, Bool.true_and, compl32, Nat.testBit_xor,
        Nat.testBit_two_pow_sub_one] at h0
      have hd : decide (i < 32) = true := decide_eq_true hi32
      rw [hd, Bool.xor_true] at h0
      simp at h0
      simp [h0]
  calc m = m &&& localMask := hml.symm
    _ ≤ localMask := Nat.and_le_right
    _ < 2 ^ D := hl

/-- Distributes a list `any` over a pointwise disjunction of two guarded
checks into the two filtered enumerations — the bridge between the
source's single interleaved mask loop and the spec's per-stage subset
enumeration. -/
theorem pass_any_split (l : List Nat) (p1 h1 p2 h2 : Nat → Bool) :
    (l.any fun j => (p1 j && h1 j) || (p2 j && h2 j))
      = ((l.filter p1).any h1 || (l.filter p2).any h2) := by
  induction l with
  | nil => rfl
  | cons a t ih =>
    simp only [List.any_cons, List.filter_cons, ih]
    cases hp1 : p1 a <;> cases hp2 : p2 a <;>
      simp [hp1, hp2, Bool.or_assoc, Bool.or_comm, Bool.or_left_comm]

/-- The source's interleaved mask loop in `isChanged` computes the same
staleness verdict as the spec's per-stage subset enumeration. -/
theorem isChanged_eq_isChangedEnum (fs : FsModel) (c : ShaderCombinations)
    (bb sp : Path) : isChanged fs c bb sp = isChangedEnum fs c bb sp := by
  simp only [isChanged, isChangedEnum, maskEnum]
  apply congrArg
  funext p
  exact pass_any_split _ _ _ _ _

/-- Mapping the mask out of the guarded singleton `flatMap` of
`compilePassInvs` yields the filtered mask enumeration. -/
theorem map_mask_flat (l : List Nat) (pb : Nat → Bool) (mk : Nat → Invocation)
    (hmk : ∀ j, (mk j).mask = j) :
    ((l.flatMap fun j => if pb j then [mk j] else []).map Invocation.mask)
      = l.filter pb := by
  induction l with
  | nil => rfl
  | cons a t ih =>
    cases hp : pb a <;> simp [List.filter_cons, hp, ih, hmk]

/-- A path absent from a list occurs zero times in it. -/
theorem countOcc_eq_zero (d : Path) (l : List Path) (h : d ∉ l) :
    countOcc d l = 0 := by
  induction l with
  | nil => rfl
  | cons a t ih =>
    have hda : ¬ (a == d) = true := by
      simp only [beq_iff_eq]
      intro had
      exact h (had ▸ List.mem_cons_self a t)
    have hdt : d ∉ t := fun hm => h (List.mem_cons_of_mem a hm)
    simp only [countOcc, List.filter_cons] at ih ⊢
    simp [hda, ih hdt]

/-- A member of a duplicate-free list occurs exactly once in it. -/
theorem countOcc_eq_one (d : Path) (l : List Path) (hn : l.Nodup) (h : d ∈ l) :
    countOcc d l = 1 := by
  induction l with
  | nil => exact absurd h (List.not_mem_nil d)
  | cons a t ih =>
    rcases List.mem_cons.mp h with hda | hdt
    · have hat : a ∉ t := (List.nodup_cons.mp hn).1
      have hdt : d ∉ t := hda ▸ hat
      simp only [countOcc, List.filter_cons]
      have : (a == d) = true := by simp [hda]
      simp only [this, if_true, List.length_cons]
      have hz := countOcc_eq_zero d t hdt
      simp only [countOcc] at hz
      simp [hz]
    · have hda : ¬ (a == d) = true := by
        simp only [beq_iff_eq]
        intro had
        exact (List.nodup_cons.mp hn).1 (had ▸ hdt)
      simp only [countOcc, List.filter_cons]
      have := ih (List.nodup_cons.mp hn).2 hdt
      simp only [countOcc] at this
      simp [hda, this]

/-- If an in-scope vertex variant is missing, `isChanged` reports stale. -/
theorem stale_hit_vs (fs : FsModel) (c : ShaderCombinations) (bb sp : Path)
    (p : Pass) (hp : p ∈ c.passes) (m : Nat) (hm : m < 2 ^ c.defines.length)
    (hsub : m &&& compl32 p.vs_local_mask = 0)
    (hmiss : fs.fexists (vsBinPath bb p m) = false) :
    isChanged fs c bb sp = true := by
  simp only [isChanged]
  rw [List.any_eq_true]
  refine ⟨p, hp, ?_⟩
  rw [List.any_eq_true]
  refine ⟨m, List.mem_range.mpr hm, ?_⟩
  simp [hsub, staleCheck, hmiss]

/-- If an in-scope fragment variant is missing, `isChanged` reports stale. -/
theorem stale_hit_fs (fs : FsModel) (c : ShaderCombinations) (bb sp : Path)
    (p : Pass) (hp : p ∈ c.passes) (m : Nat) (hm : m < 2 ^ c.defines.length)
    (hsub : m &&& compl32 p.fs_local_mask = 0)
    (hmiss : fs.fexists (fsBinPath bb p m) = false) :
    isChanged fs c bb sp = true := by
  simp only [isChanged]
  rw [List.any_eq_true]
  refine ⟨p, hp, ?_⟩
  rw [List.any_eq_true]
  refine ⟨m, List.mem_range.mpr hm, ?_⟩
  simp [hsub, staleCheck, hmiss]

/-- Appending `.shd` to any path yields extension `shd` — the rewritten
stage path always passes the descriptor-extension test. -/
theorem hasExtension_append_shd (x : Path) :
    hasExtension (x ++ ".shd".toList) "shd".toList = true := by
  have hs : (".shd".toList : Path) = ['.', 's', 'h', 'd'] := rfl
  unfold hasExtension getExtension
  rw [hs]
  have hm : '.' ∈ x ++ ['.', 's', 'h', 'd'] :=
    List.mem_append_right x (by simp)
  rw [if_pos hm, List.reverse_append]
  have h1 : (['.', 's', 'h', 'd'] : Path).reverse ++ x.reverse
      = 'd' :: 'h' :: 's' :: '.' :: x.reverse := rfl
  rw [h1]
  rw [List.takeWhile_cons_of_pos (by decide), List.takeWhile_cons_of_pos (by decide),
    List.takeWhile_cons_of_pos (by decide), List.takeWhile_cons_of_neg (by decide)]
  rfl

/-- C1: evaluation of `isChanged` at the failing input.  The descriptor
`pipelines/foo.shd` has mtime 10, its vertex stage file
`pipelines/foo_vs.sc` does not exist, the fragment stage file has mtime 5
and every in-scope binary variant exists with mtime 7.  The claim says the
baseline is the max of the three mtimes, a missing stage file counts as
infinitely new, and such a descriptor is always reported stale; the code
instead overwrites the baseline with the missing file's reported mtime (0),
yielding baseline 5 — below the descriptor's own mtime 10 — and reports
the descriptor up to date. -/
theorem C1_missing_stage_not_stale :
    fsC1.fexists (getShaderPath shdC1 true) = false
    ∧ fsC1.mtime shdC1 = 10
    ∧ staleBaseline fsC1 shdC1 = 5
    ∧ isChanged fsC1 cC1 ("pipelines/compiled/foo_".toList) shdC1 = false := by
  decide

/-- C2: for every pass and stage, the staleness scan checks and
`compilePass` issues an invocation for exactly the masks that are subsets
of the local mask: the scan equals the per-stage subset enumeration
`maskEnum`, a mask below `2^32` is in `maskEnum` iff `m &&& ~localMask = 0`,
and the masks of the invocations issued by `compilePass` are exactly
`maskEnum` of its local mask. -/
theorem C2_mask_subset_law (c : ShaderCombinations) (localMask m : Nat)
    (hl : localMask < 2 ^ c.defines.length) (hm : m < 2 ^ 32) :
    (∀ fs bb sp, isChanged fs c bb sp = isChangedEnum fs c bb sp)
    ∧ (m ∈ maskEnum c.defines.length localMask ↔ m &&& compl32 localMask = 0)
    ∧ (∀ bp gl sp isv pass,
        (compilePassInvs bp gl sp isv pass localMask c.defines).map Invocation.mask
          = maskEnum c.defines.length localMask) := by
  refine ⟨fun fs bb sp => isChanged_eq_isChangedEnum fs c bb sp, ?_, ?_⟩
  · unfold maskEnum
    rw [List.mem_filter, List.mem_range]
    constructor
    · rintro ⟨-, h2⟩
      simpa using h2
    · intro h
      exact ⟨subset_mask_lt c.defines.length localMask m hl hm h, by simp [h]⟩
  · intro bp gl sp isv pass
    unfold compilePassInvs maskEnum
    exact map_mask_flat _ _ _ (fun j => rfl)

/-- C2 witness: the mask-subset law instantiated at a one-define
combination with local mask 1 and mask 1. -/
theorem C2_witness :
    1 ∈ maskEnum cC2.defines.length 1 ↔ 1 &&& compl32 1 = 0 :=
  (C2_mask_subset_law cC2 1 1 (by decide) (by decide)).2.1

/-- C4: whenever the compile queue is non-empty, `processChangedFiles`
returns immediately with the state completely unchanged — no change event
is consumed and nothing is enqueued. -/
theorem C4_drain_barrier (s : CState) (h : s.to_compile ≠ []) :
    processChangedFiles s = s := by
  simp [processChangedFiles, h]

/-- C4 witness: the drain barrier at a concrete state with a non-empty
compile queue and a pending change event. -/
theorem C4_witness : processChangedFiles sC4 = sC4 :=
  C4_drain_barrier sC4 (by decide)

/-- C8: rebuilding the dependency graph fully replaces the previous graph:
the result does not depend on the pre-rebuild graph at all, equals a
rebuild from the empty graph, and a rebuild from no dependency files is
the empty graph. -/
theorem C8_rebuild_replaces (shd_files : List Path) (dfiles : List DFile)
    (old1 old2 : Deps) :
    parseDependenciesFrom shd_files dfiles old1
        = parseDependenciesFrom shd_files dfiles old2
    ∧ parseDependenciesFrom shd_files dfiles old1
        = parseDependenciesFrom shd_files dfiles []
    ∧ parseDependenciesFrom shd_files [] old1 = [] :=
  ⟨rfl, rfl, rfl⟩

/-- C3 counterexample: the stale-descriptor scan of `makeUpToDate` does
enqueue the underscore descriptor `pipelines/bad_name.shd` for compilation
(its binaries are missing, so it is stale), contradicting the claim that
such a descriptor is never enqueued. -/
theorem C3_underscore_enqueued :
    "pipelines/bad_name.shd".toList
      ∈ (makeUpToDate fsNone combosOfC3 "pipelines/compiled".toList sC3).to_compile := by
  decide

/-- C3 amended: a compile attempt on a descriptor whose basename contains
an underscore appends nothing to the reload list, issues no compiler
invocation, and logs exactly one error. -/
theorem C3_underscore_rejected_by_compile (bp : Path) (gl : Bool)
    (combosOf : Path → Option ShaderCombinations) (failed : Invocation → Bool)
    (path : Path) (h : (getBasename path).any (fun c => c == '_') = true) :
    compileRun bp gl combosOf failed path
      = { reload := [], errors := 1, invs := [] } := by
  simp [compileRun, h]

/-- C3 witness: the underscore rejection at the concrete descriptor
`pipelines/bad_name.shd`. -/
theorem C3_witness :
    compileRun [] false combosOfC3 (fun _ => false) "pipelines/bad_name.shd".toList
      = { reload := [], errors := 1, invs := [] } :=
  C3_underscore_rejected_by_compile [] false combosOfC3 (fun _ => false)
    "pipelines/bad_name.shd".toList (by decide)

/-- C9: for a descriptor whose basename contains no underscore, `compile`
appends the descriptor to the reload list no matter which variants fail,
and the list of issued invocations does not depend on the external
compiler's failures — a failing variant aborts neither the reload nor the
remaining variants. -/
theorem C9_reload_despite_failures (bp : Path) (gl : Bool)
    (combosOf : Path → Option ShaderCombinations) (f1 f2 : Invocation → Bool)
    (path : Path) (h : (getBasename path).any (fun c => c == '_') = false) :
    (compileRun bp gl combosOf f1 path).reload = [path]
    ∧ (compileRun bp gl combosOf f1 path).invs
        = (compileRun bp gl combosOf f2 path).invs := by
  unfold compileRun
  rw [h]
  cases combosOf path <;> simp

/-- C9 witness: the all-failing and the all-succeeding external compiler
yield the same invocation list for `pipelines/basic.shd`, whose reload
entry is appended either way. -/
theorem C9_witness :
    (compileRun [] false combosOfC9 (fun _ => true) "pipelines/basic.shd".toList).reload
      = ["pipelines/basic.shd".toList]
    ∧ (compileRun [] false combosOfC9 (fun _ => true) "pipelines/basic.shd".toList).invs
      = (compileRun [] false combosOfC9 (fun _ => false) "pipelines/basic.shd".toList).invs :=
  C9_reload_despite_failures [] false combosOfC9 (fun _ => true) (fun _ => false)
    "pipelines/basic.shd".toList (by decide)

/-- C7: the staleness check returns true whenever any in-scope variant
(vertex or fragment, mask a subset of the stage's local mask) is absent;
in particular a descriptor with declared passes whose compiled directory
is empty is reported stale. -/
theorem C7_missing_variant_stale (fs : FsModel) (c : ShaderCombinations)
    (bb sp : Path) :
    (∀ p ∈ c.passes, ∀ m, m < 2 ^ c.defines.length →
      (m &&& compl32 p.vs_local_mask = 0 → fs.fexists (vsBinPath bb p m) = false →
        isChanged fs c bb sp = true)
      ∧ (m &&& compl32 p.fs_local_mask = 0 → fs.fexists (fsBinPath bb p m) = false →
        isChanged fs c bb sp = true))
    ∧ (c.passes ≠ [] → (∀ q, fs.fexists (bb ++ q) = false) →
        isChanged fs c bb sp = true) := by
  constructor
  · intro p hp m hm
    exact ⟨fun hsub hmiss => stale_hit_vs fs c bb sp p hp m hm hsub hmiss,
           fun hsub hmiss => stale_hit_fs fs c bb sp p hp m hm hsub hmiss⟩
  · intro hne hempty
    obtain ⟨p, hp⟩ := List.exists_mem_of_ne_nil c.passes hne
    apply stale_hit_vs fs c bb sp p hp 0 (Nat.two_pow_pos _) (Nat.zero_and _)
    have h := hempty (p.name ++ natChars 0 ++ "_vs.shb".toList)
    simpa [vsBinPath, List.append_assoc] using h

/-- C7 witness: the descriptor of the spec's end-to-end scenario with an
entirely empty filesystem is reported stale. -/
theorem C7_witness :
    isChanged fsNone cC7 "pipelines/compiled/basic_".toList
      "pipelines/basic.shd".toList = true :=
  (C7_missing_variant_stale fsNone cC7 "pipelines/compiled/basic_".toList
    "pipelines/basic.shd".toList).2 (by decide) (fun _ => rfl)

/-- C10: a popped change path with no dependency-graph entry whose suffix
is neither `_vs.sc` nor `_fs.sc` (every path of length at most 6
included) is consumed and discarded: the only state change is that the
event disappears from the change queue. -/
theorem C10_unresolved_event_dropped (s : CState) (p : Path)
    (h0 : s.to_compile = [])
    (h1 : (removeDuplicates s.changed_files).getLast? = some p)
    (h2 : depsFind s.dependencies p = none)
    (h3 : p.length ≤ 6 ∨ (p.drop (p.length - 6) ≠ "_vs.sc".toList
          ∧ p.drop (p.length - 6) ≠ "_fs.sc".toList)) :
    processChangedFiles s
      = { s with changed_files := (removeDuplicates s.changed_files).dropLast } := by
  have hcf : ¬ s.changed_files = [] := by
    intro hnil
    rw [hnil] at h1
    simp [removeDuplicates] at h1
  by_cases hlen : p.length ≤ 6
  · simp [processChangedFiles, h0, hcf, h1, h2, hlen]
  · rcases h3 with h3 | ⟨h3v, h3f⟩
    · exact absurd h3 hlen
    · have e1 : ("_vs.sc".toList : Path) = ['_', 'v', 's', '.', 's', 'c'] := rfl
      have e2 : ("_fs.sc".toList : Path) = ['_', 'f', 's', '.', 's', 'c'] := rfl
      rw [e1] at h3v
      rw [e2] at h3f
      simp [processChangedFiles, h0, hcf, h1, h2, hlen, h3v, h3f]

/-- C10 witness: a change event on `pipelines/readme.sh` (no graph entry,
not a stage file) is consumed without enqueueing anything. -/
theorem C10_witness :
    processChangedFiles sC10
      = { sC10 with
          changed_files := (removeDuplicates sC10.changed_files).dropLast } :=
  C10_unresolved_event_dropped sC10 "pipelines/readme.sh".toList (by decide)
    (by decide) (by decide) (by decide)

/-- C5: a change event on a shared dependency (not a descriptor) with a
dependency-graph entry fans out: every recorded variant is mapped back
through the binary-basename lookup, and the compile queue afterwards is
exactly the deduplicated list of resolved descriptors — each resolved
descriptor appears in it exactly once. -/
theorem C5_shared_dependency_fanout (s : CState) (p : Path) (bins : List Path)
    (h0 : s.to_compile = [])
    (h1 : (removeDuplicates s.changed_files).getLast? = some p)
    (h2 : depsFind s.dependencies p = some bins)
    (h3 : hasExtension p "shd".toList = false) :
    (processChangedFiles s).to_compile
      = removeDuplicates (bins.filterMap
          (fun bin => getSourceFromBinaryBasename s.shd_files (getBasename bin)))
    ∧ ∀ d, (∃ bin ∈ bins,
          getSourceFromBinaryBasename s.shd_files (getBasename bin) = some d) →
        countOcc d ((processChangedFiles s).to_compile) = 1 := by
  have hcf : ¬ s.changed_files = [] := by
    intro hnil
    rw [hnil] at h1
    simp [removeDuplicates] at h1
  have e3 : ("shd".toList : Path) = ['s', 'h', 'd'] := rfl
  rw [e3] at h3
  have hpc : (processChangedFiles s).to_compile
      = removeDuplicates (bins.filterMap
          (fun bin => getSourceFromBinaryBasename s.shd_files (getBasename bin))) := by
    simp [processChangedFiles, h0, hcf, h1, h2, h3]
  refine ⟨hpc, ?_⟩
  intro d hd
  rw [hpc]
  unfold removeDuplicates
  exact countOcc_eq_one d _ (List.nodup_dedup _)
    (List.mem_dedup.mpr (List.mem_filterMap.mpr hd))

/-- C5 witness: a change on the shared include `pipelines/common.sh`,
depended on by three variants of `a.shd` and `b.shd`, fills the compile
queue with exactly the deduplicated resolved descriptors. -/
theorem C5_witness :
    (processChangedFiles sC5).to_compile
      = removeDuplicates (binsC5.filterMap
          (fun bin => getSourceFromBinaryBasename sC5.shd_files (getBasename bin))) :=
  (C5_shared_dependency_fanout sC5 "pipelines/common.sh".toList binsC5
    (by decide) (by decide) (by decide) (by decide)).1

/-- C6 counterexample: the descriptor `pipelines/foo.shd` exists (it is in
the discovered descriptor set) but has no dependency-graph entry, so a
change event on `pipelines/foo_vs.sc` enqueues nothing — refuting
"enqueued whenever that descriptor exists". -/
theorem C6_existing_descriptor_not_enqueued :
    (processChangedFiles sC6).to_compile = []
    ∧ "pipelines/foo.shd".toList ∈ sC6.shd_files := by
  decide

/-- C6 amended: a change event on a stage file (suffix `_vs.sc` or
`_fs.sc`) with no direct graph entry is rewritten to suffix `.shd`, and
the resulting descriptor is enqueued whenever it has an entry in the
dependency graph. -/
theorem C6_stage_suffix_resolution (s : CState) (p : Path) (bins : List Path)
    (h0 : s.to_compile = [])
    (h1 : (removeDuplicates s.changed_files).getLast? = some p)
    (h2 : depsFind s.dependencies p = none)
    (h3 : 6 < p.length)
    (h4 : p.drop (p.length - 6) = "_vs.sc".toList
        ∨ p.drop (p.length - 6) = "_fs.sc".toList)
    (h5 : depsFind s.dependencies (p.take (p.length - 6) ++ ".shd".toList)
        = some bins) :
    (processChangedFiles s).to_compile
      = [p.take (p.length - 6) ++ ".shd".toList] := by
  have hcf : ¬ s.changed_files = [] := by
    intro hnil
    rw [hnil] at h1
    simp [removeDuplicates] at h1
  have hlen : ¬ p.length ≤ 6 := not_le.mpr h3
  have e5 : (".shd".toList : Path) = ['.', 's', 'h', 'd'] := rfl
  rw [e5] at h5
  have hext : hasExtension (p.take (p.length - 6) ++ ['.', 's', 'h', 'd'])
      ['s', 'h', 'd'] = true := by
    simpa using hasExtension_append_shd (p.take (p.length - 6))
  rcases h4 with h4 | h4
  · have e4 : ("_vs.sc".toList : Path) = ['_', 'v', 's', '.', 's', 'c'] := rfl
    rw [e4] at h4
    simp [processChangedFiles, h0, hcf, h1, h2, hlen, h4, h5, hext]
  · have e4 : ("_fs.sc".toList : Path) = ['_', 'f', 's', '.', 's', 'c'] := rfl
    rw [e4] at h4
    simp [processChangedFiles, h0, hcf, h1, h2, hlen, h4, h5, hext]

/-- C6 witness: with `pipelines/foo.shd` present in the dependency graph,
a change event on `pipelines/foo_vs.sc` enqueues the rewritten descriptor. -/
theorem C6_witness :
    (processChangedFiles sC6w).to_compile
      = [("pipelines/foo_vs.sc".toList : Path).take
            ("pipelines/foo_vs.sc".toList.length - 6) ++ ".shd".toList] :=
  C6_stage_suffix_resolution sC6w "pipelines/foo_vs.sc".toList
    ["pipelines/compiled/foo_M0_vs.shb".toList]
    (by decide) (by decide) (by decide) (by decide) (Or.inl (by decide)) (by decide)

end ShaderCompilerModel
